import Mathlib

/-!
Verification development for the interactive site-layout editor.

The definitions below are a shallow embedding of the TypeScript source:
geographic coordinates and pixel coordinates are pairs of rationals,
JavaScript array operations (`map`, `filter`, `find`) become the matching
`List` operations, and each React event handler becomes a pure function
from the component state it reads to the state it writes.
-/

namespace SiteLayout

/-- A latitude/longitude pair (Leaflet `LatLng`). -/
structure LatLng where
  lat : ℚ
  lng : ℚ
deriving DecidableEq, Repr

/-- A screen/layer pixel point (Leaflet `Point`). -/
structure Pt where
  x : ℚ
  y : ℚ
deriving DecidableEq, Repr

/-- Layout / plot status, from `types.ts` (`Status`). -/
inductive Status where
  | Available
  | Pending
  | Sold
deriving DecidableEq, Repr

/-- A sub-plot record, from `types.ts` (`Plot`).  The source generates plot
ids with `generateUUID` (an opaque unique string token); the embedding draws
them from a counter supply, which preserves exactly the property the source
relies on: freshly generated ids are distinct from all earlier ones. -/
structure Plot where
  id : ℕ
  plotNumber : String
  status : Status
  latlngs : List LatLng
deriving DecidableEq, Repr

/-- A layout record, from `types.ts` (`Layout`). -/
structure Layout where
  id : ℕ
  name : String
  vendorName : String
  status : Status
  latlngs : List LatLng
  plots : List Plot
deriving DecidableEq, Repr

/-- A decorative overlay record (`ImageOverlay` in `types.ts`), as used in
`MapLayout.tsx`: an id, optional raster/vector content, a geographic anchor,
a scale and a rotation.  Ids are modelled as naturals (the source uses opaque
unique strings). -/
structure ImageOverlay where
  id : ℕ
  imageUrl : Option String
  svgContent : Option String
  position : LatLng
  scale : ℚ
  rotation : ℚ
deriving DecidableEq, Repr

/-! ## Polygon drawing: finish handlers (claim C1) -/

/-- The drawing-related state of the layout-drawing `MapLayout` component:
`isDrawing` and the accumulated `drawingPoints` buffer. -/
structure DrawState where
  isDrawing : Bool
  drawingPoints : List LatLng
deriving DecidableEq, Repr

/-- `handleFinishClick` from `MapLayout.tsx`: emits the point buffer to
`onDrawingFinish` only when it holds more than 2 points, then
unconditionally leaves drawing mode and clears the buffer.  Returns the
emitted point sequence (if any) paired with the new state. -/
def handleFinishClick (s : DrawState) : Option (List LatLng) × DrawState :=
  ((if s.drawingPoints.length > 2 then some s.drawingPoints else none),
   { isDrawing := false, drawingPoints := [] })

/-- The `disabled` attribute of the Finish button in `MapLayout.tsx`
(`disabled={drawingPoints.length < 3}`). -/
def finishButtonDisabled (drawingPoints : List LatLng) : Bool :=
  drawingPoints.length < 3

/-- The editor tool of `LayoutEditor` (`type Tool = select | draw | erase`). -/
inductive EditorTool where
  | select
  | draw
  | erase
deriving DecidableEq, Repr

/-- The state of the `LayoutEditor` component relevant to the sub-plot
drawing session: the layout's plots, the in-progress point buffer, the
drawing flag, the active tool, the selected plot (by id) and the id supply
standing in for `generateUUID`. -/
structure EditorState where
  plots : List Plot
  drawingPoints : List LatLng
  isDrawing : Bool
  tool : EditorTool
  selectedPlot : Option ℕ
  nextId : ℕ
deriving DecidableEq, Repr

/-- `handleFinishDrawing` from `LayoutEditor`: returns unchanged below 3
points; otherwise appends a new plot labelled
`"Plot #" ++ (current plot count + 1)` with status `Available` and the drawn
boundary, clears the buffer, leaves drawing mode, switches back to the select
tool and selects the new plot. -/
def handleFinishDrawing (s : EditorState) : EditorState :=
  if s.drawingPoints.length < 3 then s
  else
    let newPlot : Plot :=
      { id := s.nextId
        plotNumber := "Plot #" ++ toString (s.plots.length + 1)
        status := Status.Available
        latlngs := s.drawingPoints }
    { plots := s.plots ++ [newPlot]
      drawingPoints := []
      isDrawing := false
      tool := EditorTool.select
      selectedPlot := some newPlot.id
      nextId := s.nextId + 1 }

/-- `handleToolSelect` from `LayoutEditor`: switches the tool, sets
`isDrawing` exactly when the draw tool was chosen, and clears the point
buffer when any other tool was chosen. -/
def handleToolSelect (s : EditorState) (t : EditorTool) : EditorState :=
  { s with
    tool := t
    isDrawing := t = EditorTool.draw
    drawingPoints := if t = EditorTool.draw then s.drawingPoints else [] }

/-- `handleMapClick` from `LayoutEditor`: in draw mode appends the clicked
coordinate to the buffer; with the select tool it deselects the plot. -/
def editorMapClick (s : EditorState) (p : LatLng) : EditorState :=
  if s.tool = EditorTool.draw ∧ s.isDrawing then
    { s with drawingPoints := s.drawingPoints ++ [p] }
  else if s.tool = EditorTool.select then
    { s with selectedPlot := none }
  else s

/-- The `plotPolygon` click handler of `LayoutEditor` with the erase tool
active: removes the clicked plot by id and clears the plot selection.
With the select tool it selects the clicked plot; otherwise no change. -/
def plotPolygonClick (s : EditorState) (pid : ℕ) : EditorState :=
  if s.tool = EditorTool.select then
    { s with selectedPlot := some pid }
  else if s.tool = EditorTool.erase then
    { s with
      plots := s.plots.filter (fun p => p.id ≠ pid)
      selectedPlot := none }
  else s

/-! ## Shape canvas: hit-testing with the select tool (claim C2) -/

/-- Shape kind, from `types.ts` (`Shape['type']`). -/
inductive ShapeType where
  | square
  | rectangle
  | road
  | tree
deriving DecidableEq, Repr

/-- A schematic canvas shape, from `types.ts` (`Shape`): screen-space
top-left corner, dimensions, rotation, colour and a selection flag.  Ids
are modelled as naturals (the source uses `generateId` random tokens). -/
structure Shape where
  id : ℕ
  type : ShapeType
  x : ℚ
  y : ℚ
  width : ℚ
  height : ℚ
  rotation : ℚ
  color : String
  isSelected : Bool
deriving DecidableEq, Repr

/-- The axis-aligned bounding-box containment test used by the
`DrawingTool.Select` case of `handleCanvasClick`:
`x >= shape.x && x <= shape.x + shape.width && y >= shape.y && y <= shape.y + shape.height`. -/
def hitTest (x y : ℚ) (s : Shape) : Bool :=
  decide (s.x ≤ x) && decide (x ≤ s.x + s.width) &&
  decide (s.y ≤ y) && decide (y ≤ s.y + s.height)

/-- The `DrawingTool.Select` case of `handleCanvasClick`
(`DrawingToolsPanel` / `CompactLayoutEditor`): `shapes.find(...)` picks the
clicked shape, `setSelectedShapeId` records its id (or null), and every
shape's `isSelected` becomes `shape.id === clickedShape?.id`.  Returns the
new `selectedShapeId` and the new shape list. -/
def selectClick (shapes : List Shape) (x y : ℚ) : Option ℕ × List Shape :=
  let clickedShape := shapes.find? (hitTest x y)
  (clickedShape.map Shape.id,
   shapes.map (fun sh =>
     { sh with isSelected := decide (some sh.id = clickedShape.map Shape.id) }))

/-! ## Layout/plot data layer (claims C3, C8, C9) -/

/-- `handleDrawingFinish` from `PlannerApp.tsx`: computes the next layout id
as `Math.max(...ids) + 1` over a non-empty list (or 1 for an empty list),
appends a new layout with the drawn boundary, empty plots, default name and
vendor, and status `Available`, and makes it the selected layout.  Returns
the new layout list together with the newly created layout. -/
def handleDrawingFinish (layouts : List Layout) (latlngs : List LatLng) :
    List Layout × Layout :=
  let newId :=
    if layouts.length > 0 then (layouts.map Layout.id).foldl max 0 + 1 else 1
  let newLayout : Layout :=
    { id := newId
      name := "New Layout " ++ toString newId
      vendorName := "N/A"
      status := Status.Available
      latlngs := latlngs
      plots := [] }
  (layouts ++ [newLayout], newLayout)

/-- `handleLayoutDelete` from `PlannerApp.tsx`.  `confirmed` is the result
of the `window.confirm` dialog; only when it is true does the handler filter
out the layout with the given id and clear the selection when the selected
layout carried that id.  Returns the new layout list and selection. -/
def handleLayoutDelete (confirmed : Bool) (layouts : List Layout)
    (selectedLayout : Option Layout) (layoutId : ℕ) :
    List Layout × Option Layout :=
  if confirmed then
    (layouts.filter (fun l => l.id ≠ layoutId),
     match selectedLayout with
     | some sl => if sl.id = layoutId then none else some sl
     | none => none)
  else
    (layouts, selectedLayout)

/-- `handleLayoutUpdate` from `PlannerApp.tsx`:
`layouts.map(p => p.id === updatedLayout.id ? updatedLayout : p)`, and the
updated layout becomes the selection. -/
def handleLayoutUpdate (layouts : List Layout) (updatedLayout : Layout) :
    List Layout × Option Layout :=
  (layouts.map (fun p => if p.id = updatedLayout.id then updatedLayout else p),
   some updatedLayout)

/-- `handleUpdateSvgOverlay` from `PlannerApp.tsx`:
`prev.map(o => o.id === updated.id ? updated : o)`. -/
def handleUpdateSvgOverlay (overlays : List ImageOverlay)
    (updated : ImageOverlay) : List ImageOverlay :=
  overlays.map (fun o => if o.id = updated.id then updated else o)

/-! ## Overlay drag (claim C4)

The drag handlers of `MapLayout.tsx` work against the Leaflet projection
(`latLngToLayerPoint` / `layerPointToLatLng`).  The projection is an
external collaborator (the Viewport Adapter contract), so the embedding
takes it as a parameter pair `proj` / `unproj`. -/

/-- The gesture state of an in-progress overlay drag: the overlay's current
anchor and the `dragOffset` (pointer position captured on mouse-down and
refreshed on every move). -/
structure DragState where
  overlayPos : LatLng
  dragOffset : Pt
deriving DecidableEq, Repr

/-- `handleSvgMouseDown` from `MapLayout.tsx`: starts a drag, capturing the
current pointer position as `dragOffset`. -/
def handleSvgMouseDown (pos : LatLng) (mouse : Pt) : DragState :=
  { overlayPos := pos, dragOffset := mouse }

/-- The drag `handleMouseMove` of `MapLayout.tsx`: projects the current
anchor to pixel space, adds the pixel delta of the pointer since the
previous move, unprojects back, and refreshes `dragOffset` to the current
pointer position. -/
def dragMouseMove (proj : LatLng → Pt) (unproj : Pt → LatLng)
    (s : DragState) (mouse : Pt) : DragState :=
  let mapPoint := proj s.overlayPos
  let dx := mouse.x - s.dragOffset.x
  let dy := mouse.y - s.dragOffset.y
  let newLatLng := unproj ⟨mapPoint.x + dx, mapPoint.y + dy⟩
  { overlayPos := newLatLng, dragOffset := mouse }

/-! ## Overlay resize (claim C5)

`Math.sqrt` has no exact rational counterpart, so the embedding takes the
square-root function as a parameter `sqrtFn`; claims about concrete
distances supply hypotheses fixing its value at the relevant squares. -/

/-- The resize `handleMouseMove` of `MapLayout.tsx`: recomputes the
mouse-down-to-anchor distance and the current pointer-to-anchor distance and
sets `scale = Math.max(0.1, resizeStart.scale * (currDist / startDist))`.
`startMouse`/`startScale` are the `resizeStart` fields captured by
`handleResizeMouseDown`; `anchorPt` is the projected overlay anchor. -/
def resizeMouseMove (sqrtFn : ℚ → ℚ) (startMouse : Pt) (startScale : ℚ)
    (anchorPt mouse : Pt) : ℚ :=
  let startDist := sqrtFn ((startMouse.x - anchorPt.x) ^ 2 + (startMouse.y - anchorPt.y) ^ 2)
  let currDist := sqrtFn ((mouse.x - anchorPt.x) ^ 2 + (mouse.y - anchorPt.y) ^ 2)
  max (1 / 10) (startScale * (currDist / startDist))

/-- A concrete stand-in for `Math.sqrt`, exact at the squared distances of
the 100px → 200px resize scenario. -/
def sqrtSample (q : ℚ) : ℚ :=
  if q = 10000 then 100 else if q = 40000 then 200 else 0

/-! ## Overlay rotation normalization (claim C6) -/

/-- JavaScript `Math.trunc`-style truncation of a rational toward zero,
matching the rounding used by the JS `%` remainder operator. -/
def ratTrunc (q : ℚ) : ℤ :=
  if 0 ≤ q then ⌊q⌋ else ⌈q⌉

/-- The JavaScript remainder operator `x % y`: `x - y * trunc(x / y)`,
with the sign of the dividend. -/
def jsMod (x y : ℚ) : ℚ :=
  x - y * (ratTrunc (x / y) : ℚ)

/-- The rotation normalization from the rotate `handleMouseMove` of
`MapLayout.tsx`: `newRotation = (...) % 360; if (newRotation < 0)
newRotation += 360`. -/
def rotNormalize (x : ℚ) : ℚ :=
  let newRotation := jsMod x 360
  if newRotation < 0 then newRotation + 360 else newRotation

/-- The rotate `handleMouseMove` of `MapLayout.tsx`, with the angle work
abstracted: the source computes `delta = atan2(...) - rotateStartAngle` in
radians and converts it to degrees with `delta * 180 / Math.PI`; `deltaDeg`
stands for that degree-valued delta.  The result is
`rotateInitialRotation + deltaDeg` normalized into `[0, 360)`. -/
def rotateMouseMove (rotateInitialRotation deltaDeg : ℚ) : ℚ :=
  rotNormalize (rotateInitialRotation + deltaDeg)

/-! ## Overlay manipulation engine as a state machine (claim C7)

`MapLayout.tsx` keeps at most one active gesture in its `draggingId` /
`resizingId` / `rotatingId` state, together with the values captured on
mouse-down.  Handles (and the overlay's own mouse-down handler) are rendered
only for overlays that are not in `fixedOverlays`, so events on a fixed
overlay never reach the gesture machinery; the step function below encodes
that render-level gating as guards. -/

/-- The active gesture of `MapLayout.tsx`: none, or dragging / resizing /
rotating a given overlay with the values captured at mouse-down. -/
inductive Gesture where
  | idle
  | dragging (id : ℕ) (dragOffset : Pt)
  | resizing (id : ℕ) (startMouse : Pt) (startScale : ℚ)
  | rotating (id : ℕ) (startAngleDeg : ℚ) (initialRotation : ℚ)
deriving DecidableEq, Repr

/-- Whether a gesture currently targets the overlay with the given id. -/
def gestureTargets : Gesture → ℕ → Bool
  | Gesture.idle, _ => false
  | Gesture.dragging i _, j => i == j
  | Gesture.resizing i _ _, j => i == j
  | Gesture.rotating i _ _, j => i == j

/-- The overlay-manipulation state of `MapLayout.tsx`: the overlay list, the
set of fixed overlay ids (`fixedOverlays`), and the active gesture. -/
structure MapState where
  overlays : List ImageOverlay
  fixedOverlays : List ℕ
  gesture : Gesture
deriving DecidableEq, Repr

/-- `svgOverlays.find(o => o.id === id)`. -/
def findOverlay (overlays : List ImageOverlay) (id : ℕ) : Option ImageOverlay :=
  overlays.find? (fun o => o.id == id)

/-- The pointer events of the overlay manipulation engine. -/
inductive MapEvent where
  | svgMouseDown (id : ℕ) (mouse : Pt)
  | resizeMouseDown (id : ℕ) (mouse : Pt)
  | rotateMouseDown (id : ℕ) (mouse : Pt)
  | fixClick (id : ℕ)
  | mouseMove (mouse : Pt)
  | mouseUp
deriving DecidableEq, Repr

/-- One step of the overlay manipulation engine of `MapLayout.tsx`.  The
mouse-down and fix handlers exist only on overlays rendered with
`isAdmin && !isFixed` (pointer events and handles are disabled otherwise),
so those events are guarded accordingly; the move handlers follow the
`handleMouseMove` bodies of the drag / resize / rotate effects, each of
which updates the targeted overlay through `onUpdateSvgOverlay`
(i.e. `handleUpdateSvgOverlay`); mouse-up clears the gesture state.
`angleDeg pt mouse` abstracts `atan2(mouse.y - pt.y, mouse.x - pt.x)`
converted to degrees. -/
def step (isAdmin : Bool) (proj : LatLng → Pt) (unproj : Pt → LatLng)
    (sqrtFn : ℚ → ℚ) (angleDeg : Pt → Pt → ℚ)
    (s : MapState) (ev : MapEvent) : MapState :=
  match ev with
  | MapEvent.svgMouseDown id mouse =>
      if isAdmin && !(s.fixedOverlays.contains id) then
        { s with gesture := Gesture.dragging id mouse }
      else s
  | MapEvent.resizeMouseDown id mouse =>
      if isAdmin && !(s.fixedOverlays.contains id) then
        match findOverlay s.overlays id with
        | some o => { s with gesture := Gesture.resizing id mouse o.scale }
        | none => s
      else s
  | MapEvent.rotateMouseDown id mouse =>
      if isAdmin && !(s.fixedOverlays.contains id) then
        match findOverlay s.overlays id with
        | some o =>
            let pt := proj o.position
            { s with gesture := Gesture.rotating id (angleDeg pt mouse) o.rotation }
        | none => s
      else s
  | MapEvent.fixClick id =>
      if isAdmin && !(s.fixedOverlays.contains id) then
        { s with fixedOverlays := id :: s.fixedOverlays }
      else s
  | MapEvent.mouseUp =>
      { s with gesture := Gesture.idle }
  | MapEvent.mouseMove mouse =>
      match s.gesture with
      | Gesture.idle => s
      | Gesture.dragging id dragOffset =>
          match findOverlay s.overlays id with
          | some o =>
              let mapPoint := proj o.position
              let newPos := unproj ⟨mapPoint.x + (mouse.x - dragOffset.x),
                                    mapPoint.y + (mouse.y - dragOffset.y)⟩
              { s with
                overlays := handleUpdateSvgOverlay s.overlays { o with position := newPos }
                gesture := Gesture.dragging id mouse }
          | none => s
      | Gesture.resizing id startMouse startScale =>
          match findOverlay s.overlays id with
          | some o =>
              let pt := proj o.position
              let newScale := resizeMouseMove sqrtFn startMouse startScale pt mouse
              { s with
                overlays := handleUpdateSvgOverlay s.overlays { o with scale := newScale } }
          | none => s
      | Gesture.rotating id startAngle initRot =>
          match findOverlay s.overlays id with
          | some o =>
              let pt := proj o.position
              let newRot := rotateMouseMove initRot (angleDeg pt mouse - startAngle)
              { s with
                overlays := handleUpdateSvgOverlay s.overlays { o with rotation := newRot } }
          | none => s

/-- Whether the manipulation handles (resize, rotate, fix) are rendered for
an overlay: `isAdmin && !isFixed` in the render of `MapLayout.tsx`. -/
def showHandles (isAdmin : Bool) (s : MapState) (id : ℕ) : Bool :=
  isAdmin && !(s.fixedOverlays.contains id)

/-- Whether the overlay's container accepts pointer events:
`pointerEvents: isAdmin && !isFixed ? 'auto' : 'none'`. -/
def overlayPointerEventsEnabled (isAdmin : Bool) (s : MapState) (id : ℕ) : Bool :=
  isAdmin && !(s.fixedOverlays.contains id)

/-- The rendered pixel position of an overlay:
`map.latLngToLayerPoint(overlay.position)` recomputed from the current
projection on every render — never a cached pixel value. -/
def renderedPoint (proj : LatLng → Pt) (o : ImageOverlay) : Pt :=
  proj o.position

/-! ## Theorems -/

/-- A sample drawing state with two buffered points, in drawing mode. -/
def twoPointDraw : DrawState :=
  { isDrawing := true, drawingPoints := [⟨0, 0⟩, ⟨0, 1⟩] }

/-- C1 (counterexample): in `MapLayout.tsx`, invoking `handleFinishClick`
with only 2 buffered points is not a no-op — it clears the point buffer and
exits drawing mode, so the buffer is not left unchanged and the state
machine does not stay in Drawing. -/
theorem c1_counterexample :
    ¬ ((handleFinishClick twoPointDraw).2.drawingPoints =
         twoPointDraw.drawingPoints ∧
       (handleFinishClick twoPointDraw).2.isDrawing = true) := by
  decide

/-- C1 (amended): finish is only satisfiable with ≥3 buffered points — both
variants emit a polygon exactly when the buffer holds more than 2 points,
and the Finish button is disabled below 3 points.  With 2 or fewer points,
`LayoutEditor.handleFinishDrawing` is a strict no-op (the whole state,
buffer included, is unchanged and drawing mode persists), while
`MapLayout.handleFinishClick` emits nothing but clears the buffer and
leaves drawing mode. -/
theorem c1_amended :
    (∀ s : DrawState,
      ((handleFinishClick s).1.isSome = true ↔ 2 < s.drawingPoints.length) ∧
      (2 < s.drawingPoints.length →
        (handleFinishClick s).1 = some s.drawingPoints) ∧
      (s.drawingPoints.length ≤ 2 →
        (handleFinishClick s).1 = none ∧
        (handleFinishClick s).2.drawingPoints = [] ∧
        (handleFinishClick s).2.isDrawing = false ∧
        finishButtonDisabled s.drawingPoints = true)) ∧
    (∀ e : EditorState, e.drawingPoints.length ≤ 2 → handleFinishDrawing e = e) := by
  constructor
  · intro s
    refine ⟨?_, ?_, ?_⟩
    · by_cases h : 2 < s.drawingPoints.length <;>
        simp [handleFinishClick, h]
    · intro h
      simp [handleFinishClick, h]
    · intro h
      have h3 : ¬ 2 < s.drawingPoints.length := by omega
      have h4 : s.drawingPoints.length < 3 := by omega
      simp [handleFinishClick, finishButtonDisabled, h3, h4]
  · intro e h
    have h3 : e.drawingPoints.length < 3 := by omega
    simp [handleFinishDrawing, h3]

/-- C1 (witness): the amended theorem at a concrete 2-point buffer. -/
theorem c1_witness :
    (handleFinishClick twoPointDraw).1 = none ∧
    handleFinishDrawing
      { plots := [], drawingPoints := [⟨0, 0⟩, ⟨0, 1⟩], isDrawing := true,
        tool := EditorTool.draw, selectedPlot := none, nextId := 0 } =
      { plots := [], drawingPoints := [⟨0, 0⟩, ⟨0, 1⟩], isDrawing := true,
        tool := EditorTool.draw, selectedPlot := none, nextId := 0 } :=
  ⟨((c1_amended.1 twoPointDraw).2.2 (by decide)).1,
   c1_amended.2 _ (by decide)⟩

/-- The accumulator of a running maximum never exceeds the result. -/
lemma init_le_foldl_max (l : List ℕ) : ∀ a : ℕ, a ≤ l.foldl max a := by
  induction l with
  | nil => intro a; exact le_refl a
  | cons b t ih =>
      intro a
      exact le_trans (le_max_left a b) (ih (max a b))

/-- Every member of a list is bounded by its running maximum. -/
lemma mem_le_foldl_max (l : List ℕ) : ∀ (a x : ℕ), x ∈ l → x ≤ l.foldl max a := by
  induction l with
  | nil => intro a x hx; cases hx
  | cons b t ih =>
      intro a x hx
      rcases List.mem_cons.mp hx with h | h
      · subst h
        exact le_trans (le_max_right a x) (init_le_foldl_max t (max a x))
      · exact ih (max a b) x h

/-- C3: finishing a drawing with points P1, P2, P3 creates a layout whose id
is `max(existing ids) + 1` (or 1 on an empty list) — strictly greater than,
and hence distinct from, every existing id — whose boundary is exactly
[P1, P2, P3] in order, whose status defaults to `Available`, and which is
appended to the layout list. -/
theorem c3_confirmed (layouts : List Layout) (p1 p2 p3 : LatLng) :
    (handleDrawingFinish layouts [p1, p2, p3]).2.latlngs = [p1, p2, p3] ∧
    (handleDrawingFinish layouts [p1, p2, p3]).2.status = Status.Available ∧
    (handleDrawingFinish layouts [p1, p2, p3]).2.id =
      (if layouts = [] then 1 else (layouts.map Layout.id).foldl max 0 + 1) ∧
    (∀ l ∈ layouts, l.id < (handleDrawingFinish layouts [p1, p2, p3]).2.id) ∧
    (∀ l ∈ layouts, l.id ≠ (handleDrawingFinish layouts [p1, p2, p3]).2.id) ∧
    (handleDrawingFinish layouts [p1, p2, p3]).1 =
      layouts ++ [(handleDrawingFinish layouts [p1, p2, p3]).2] := by
  have hmono : ∀ l ∈ layouts, l.id < (handleDrawingFinish layouts [p1, p2, p3]).2.id := by
    intro l hl
    have hne : layouts.length > 0 := List.length_pos.mpr (List.ne_nil_of_mem hl)
    have hb : l.id ≤ (layouts.map Layout.id).foldl max 0 :=
      mem_le_foldl_max (layouts.map Layout.id) 0 l.id (List.mem_map_of_mem Layout.id hl)
    simp only [handleDrawingFinish, if_pos hne]
    omega
  refine ⟨rfl, rfl, ?_, hmono, fun l hl => Nat.ne_of_lt (hmono l hl), rfl⟩
  by_cases he : layouts = []
  · subst he; rfl
  · have hne : layouts.length > 0 := List.length_pos.mpr he
    simp only [handleDrawingFinish, if_pos hne, if_neg he]

/-- A sample pre-existing layout with id 3. -/
def sampleLayout : Layout :=
  { id := 3, name := "A", vendorName := "V", status := Status.Available,
    latlngs := [], plots := [] }

/-- C3 (witness): finishing a triangle over the one-layout list `[id 3]`
produces boundary [P1, P2, P3], status `Available`, and an id distinct from
the existing id 3. -/
theorem c3_witness :
    (handleDrawingFinish [sampleLayout] [⟨0, 0⟩, ⟨0, 1⟩, ⟨1, 0⟩]).2.latlngs =
      [⟨0, 0⟩, ⟨0, 1⟩, ⟨1, 0⟩] ∧
    (handleDrawingFinish [sampleLayout] [⟨0, 0⟩, ⟨0, 1⟩, ⟨1, 0⟩]).2.status =
      Status.Available ∧
    sampleLayout.id ≠
      (handleDrawingFinish [sampleLayout] [⟨0, 0⟩, ⟨0, 1⟩, ⟨1, 0⟩]).2.id :=
  ⟨(c3_confirmed [sampleLayout] ⟨0, 0⟩ ⟨0, 1⟩ ⟨1, 0⟩).1,
   (c3_confirmed [sampleLayout] ⟨0, 0⟩ ⟨0, 1⟩ ⟨1, 0⟩).2.1,
   (c3_confirmed [sampleLayout] ⟨0, 0⟩ ⟨0, 1⟩ ⟨1, 0⟩).2.2.2.2.1 sampleLayout
     (by decide)⟩

/-- C5: every resize move sets
`scale = max(0.1, initialScale * currDist / startDist)`, so the resulting
scale is at least 0.1 for every pointer position (in particular when the
pointer crosses the anchor and the distance ratio collapses), and resizing
from initial distance 100px to distance 200px with initial scale 1 yields
scale 2. -/
theorem c5_confirmed (sqrtFn : ℚ → ℚ) :
    (∀ (startMouse : Pt) (startScale : ℚ) (anchorPt mouse : Pt),
      1 / 10 ≤ resizeMouseMove sqrtFn startMouse startScale anchorPt mouse) ∧
    (sqrtFn 10000 = 100 → sqrtFn 40000 = 200 →
      resizeMouseMove sqrtFn ⟨100, 0⟩ 1 ⟨0, 0⟩ ⟨200, 0⟩ = 2) := by
  constructor
  · intro startMouse startScale anchorPt mouse
    exact le_max_left _ _
  · intro h1 h2
    have e1 : ((100 : ℚ) - 0) ^ 2 + ((0 : ℚ) - 0) ^ 2 = 10000 := by norm_num
    have e2 : ((200 : ℚ) - 0) ^ 2 + ((0 : ℚ) - 0) ^ 2 = 40000 := by norm_num
    simp only [resizeMouseMove, e1, e2, h1, h2]
    norm_num

/-- C5 (witness): with a concrete square root the floor holds at a pointer
that sits on the anchor (both distances degenerate), and the 100px → 200px
scenario yields scale 2. -/
theorem c5_witness :
    1 / 10 ≤ resizeMouseMove sqrtSample ⟨3, 4⟩ 1 ⟨0, 0⟩ ⟨0, 0⟩ ∧
    resizeMouseMove sqrtSample ⟨100, 0⟩ 1 ⟨0, 0⟩ ⟨200, 0⟩ = 2 :=
  ⟨(c5_confirmed sqrtSample).1 ⟨3, 4⟩ 1 ⟨0, 0⟩ ⟨0, 0⟩,
   (c5_confirmed sqrtSample).2 (by norm_num [sqrtSample]) (by norm_num [sqrtSample])⟩

/-- C6: for every initial rotation and every degree-valued angle delta, the
rotation produced by the rotate move handler — `(initial + delta) % 360`
with negative results wrapped by +360 — lies in [0, 360). -/
theorem c6_confirmed (rotateInitialRotation deltaDeg : ℚ) :
    0 ≤ rotateMouseMove rotateInitialRotation deltaDeg ∧
    rotateMouseMove rotateInitialRotation deltaDeg < 360 := by
  have h360 : (0 : ℚ) < 360 := by norm_num
  set x := rotateInitialRotation + deltaDeg with hx
  have hmul : 360 * (x / 360) = x := by field_simp
  unfold rotateMouseMove rotNormalize jsMod ratTrunc
  by_cases h : 0 ≤ x / 360
  · have h1 : (⌊x / 360⌋ : ℚ) ≤ x / 360 := Int.floor_le _
    have h2 : x / 360 < ⌊x / 360⌋ + 1 := Int.lt_floor_add_one _
    have hb1 : 360 * (⌊x / 360⌋ : ℚ) ≤ x := by
      have := mul_le_mul_of_nonneg_left h1 (le_of_lt h360)
      rw [hmul] at this
      exact this
    have hb2 : x < 360 * (⌊x / 360⌋ : ℚ) + 360 := by
      have := mul_lt_mul_of_pos_left h2 h360
      rw [hmul] at this
      linarith [this]
    simp only [if_pos h]
    split_ifs with hneg
    · constructor <;> linarith
    · constructor <;> linarith
  · have h1 : x / 360 ≤ (⌈x / 360⌉ : ℚ) := Int.le_ceil _
    have h2 : (⌈x / 360⌉ : ℚ) < x / 360 + 1 := Int.ceil_lt_add_one _
    have hb1 : x ≤ 360 * (⌈x / 360⌉ : ℚ) := by
      have := mul_le_mul_of_nonneg_left h1 (le_of_lt h360)
      rw [hmul] at this
      exact this
    have hb2 : 360 * (⌈x / 360⌉ : ℚ) < x + 360 := by
      have hlt := mul_lt_mul_of_pos_left h2 h360
      have hdist : 360 * (x / 360 + 1) = x + 360 := by
        rw [mul_add, hmul]; ring
      rw [hdist] at hlt
      exact hlt
    simp only [if_neg h]
    split_ifs with hneg
    · constructor <;> linarith
    · constructor <;> linarith

/-- C8: a confirmed delete of the layout with id X leaves a list with no
record of id X while retaining every other record, and clears the selection
exactly when the selected layout carried id X; a declined confirmation
leaves both the list and the selection unchanged. -/
theorem c8_confirmed (confirmed : Bool) (layouts : List Layout)
    (selectedLayout : Option Layout) (layoutId : ℕ) :
    ((∀ l ∈ (handleLayoutDelete true layouts selectedLayout layoutId).1,
        l.id ≠ layoutId) ∧
     (∀ l ∈ layouts, l.id ≠ layoutId →
        l ∈ (handleLayoutDelete true layouts selectedLayout layoutId).1) ∧
     (∀ sl, selectedLayout = some sl →
        ((handleLayoutDelete true layouts selectedLayout layoutId).2 = none ↔
          sl.id = layoutId)) ∧
     (selectedLayout = none →
        (handleLayoutDelete true layouts selectedLayout layoutId).2 = none)) ∧
    (confirmed = false →
      handleLayoutDelete confirmed layouts selectedLayout layoutId =
        (layouts, selectedLayout)) := by
  refine ⟨⟨?_, ?_, ?_, ?_⟩, ?_⟩
  · intro l hl
    have := (List.mem_filter.mp hl).2
    simpa using this
  · intro l hl hne
    exact List.mem_filter.mpr ⟨hl, by simpa using hne⟩
  · intro sl hsl
    subst hsl
    by_cases h : sl.id = layoutId
    · simp [handleLayoutDelete, h]
    · simp [handleLayoutDelete, h]
  · intro h
    subst h
    simp [handleLayoutDelete]
  · intro h
    subst h
    simp [handleLayoutDelete]

/-- C8 (witness): deleting id 3 while the layout with id 3 is selected
clears the selection and removes id 3 from the list; declining leaves the
state untouched. -/
theorem c8_witness :
    ((handleLayoutDelete true [sampleLayout] (some sampleLayout) 3).2 = none) ∧
    handleLayoutDelete false [sampleLayout] (some sampleLayout) 3 =
      ([sampleLayout], some sampleLayout) :=
  ⟨((c8_confirmed true [sampleLayout] (some sampleLayout) 3).1.2.2.1
      sampleLayout rfl).mpr rfl,
   (c8_confirmed false [sampleLayout] (some sampleLayout) 3).2 rfl⟩

/-- C9: update-by-id is frame-preserving for both overlays and layouts — it
keeps the list length, keeps every position whose record has a different id
exactly as it was, replaces every position whose record has the matching id
with the update, and is the identity when no record has the id. -/
theorem c9_confirmed (overlays : List ImageOverlay) (u : ImageOverlay)
    (layouts : List Layout) (ul : Layout) :
    ((handleUpdateSvgOverlay overlays u).length = overlays.length ∧
     (∀ (i : ℕ) (o : ImageOverlay), overlays[i]? = some o → o.id ≠ u.id →
        (handleUpdateSvgOverlay overlays u)[i]? = some o) ∧
     (∀ (i : ℕ) (o : ImageOverlay), overlays[i]? = some o → o.id = u.id →
        (handleUpdateSvgOverlay overlays u)[i]? = some u) ∧
     ((∀ o ∈ overlays, o.id ≠ u.id) →
        handleUpdateSvgOverlay overlays u = overlays)) ∧
    ((handleLayoutUpdate layouts ul).1.length = layouts.length ∧
     (∀ (i : ℕ) (l : Layout), layouts[i]? = some l → l.id ≠ ul.id →
        (handleLayoutUpdate layouts ul).1[i]? = some l) ∧
     (∀ (i : ℕ) (l : Layout), layouts[i]? = some l → l.id = ul.id →
        (handleLayoutUpdate layouts ul).1[i]? = some ul) ∧
     ((∀ l ∈ layouts, l.id ≠ ul.id) →
        (handleLayoutUpdate layouts ul).1 = layouts)) := by
  refine ⟨⟨?_, ?_, ?_, ?_⟩, ?_, ?_, ?_, ?_⟩
  · simp [handleUpdateSvgOverlay]
  · intro i o hi hne
    simp [handleUpdateSvgOverlay, List.getElem?_map, hi, hne]
  · intro i o hi heq
    simp [handleUpdateSvgOverlay, List.getElem?_map, hi, heq]
  · intro h
    have : overlays.map (fun o => if o.id = u.id then u else o) =
        overlays.map id := by
      apply List.map_congr_left
      intro o ho
      simp [h o ho]
    simpa [handleUpdateSvgOverlay] using this
  · simp [handleLayoutUpdate]
  · intro i l hi hne
    simp [handleLayoutUpdate, List.getElem?_map, hi, hne]
  · intro i l hi heq
    simp [handleLayoutUpdate, List.getElem?_map, hi, heq]
  · intro h
    have : layouts.map (fun p => if p.id = ul.id then ul else p) =
        layouts.map id := by
      apply List.map_congr_left
      intro l hl
      simp [h l hl]
    simpa [handleLayoutUpdate] using this

/-- A sample overlay with id 7 at the origin. -/
def sampleOverlay : ImageOverlay :=
  { id := 7, imageUrl := none, svgContent := some "s", position := ⟨0, 0⟩,
    scale := 1, rotation := 0 }

/-- C9 (witness): updating id 9 in a one-overlay list holding only id 7 is
the identity, and the unmatched position is untouched. -/
theorem c9_witness :
    handleUpdateSvgOverlay [sampleOverlay] { sampleOverlay with id := 9 } =
      [sampleOverlay] ∧
    (handleLayoutUpdate [sampleLayout] { sampleLayout with id := 9 }).1[0]? =
      some sampleLayout :=
  ⟨(c9_confirmed [sampleOverlay] { sampleOverlay with id := 9 } [] sampleLayout).1.2.2.2
      (by decide),
   (c9_confirmed [] sampleOverlay [sampleLayout]
      { sampleLayout with id := 9 }).2.2.1 0 sampleLayout (by decide) (by decide)⟩

/-- The empty editor session: no plots, no buffered points, select tool. -/
def editorStart : EditorState :=
  { plots := [], drawingPoints := [], isDrawing := false,
    tool := EditorTool.select, selectedPlot := none, nextId := 0 }

/-- One complete sub-plot drawing session: pick the draw tool, click three
points, press Finish Plot. -/
def drawTriangle (s : EditorState) (a b c : LatLng) : EditorState :=
  handleFinishDrawing
    (editorMapClick
      (editorMapClick
        (editorMapClick (handleToolSelect s EditorTool.draw) a) b) c)

/-- The draw/erase sequence of claim C10: draw plot 1, draw plot 2, erase
plot 1 with the erase tool, draw a third plot. -/
def c10Session : EditorState :=
  drawTriangle
    (plotPolygonClick
      (handleToolSelect
        (drawTriangle
          (drawTriangle editorStart ⟨0, 0⟩ ⟨0, 1⟩ ⟨1, 0⟩)
          ⟨2, 0⟩ ⟨2, 1⟩ ⟨3, 0⟩)
        EditorTool.erase)
      0)
    ⟨4, 0⟩ ⟨4, 1⟩ ⟨5, 0⟩

/-- C10: a newly finished plot is labelled `"Plot #" ++ (plot count + 1)`,
so the draw–draw–erase–draw sequence above ends with two coexisting plots
that both carry the label "Plot #2" while their id tokens stay distinct. -/
theorem c10_confirmed :
    (∀ s : EditorState, 3 ≤ s.drawingPoints.length →
      (handleFinishDrawing s).plots.map Plot.plotNumber =
        s.plots.map Plot.plotNumber ++
          ["Plot #" ++ toString (s.plots.length + 1)]) ∧
    (c10Session.plots.map Plot.plotNumber = ["Plot #2", "Plot #2"] ∧
     c10Session.plots.map Plot.id = [1, 2]) := by
  refine ⟨?_, by decide, by decide⟩
  intro s h
  have h3 : ¬ s.drawingPoints.length < 3 := by omega
  simp [handleFinishDrawing, h3]

/-- C10 (witness): the labelling rule at a concrete three-point buffer over
an empty plot list yields the label "Plot #1". -/
theorem c10_witness :
    (handleFinishDrawing
      { plots := [], drawingPoints := [⟨0, 0⟩, ⟨0, 1⟩, ⟨1, 0⟩],
        isDrawing := true, tool := EditorTool.draw, selectedPlot := none,
        nextId := 0 }).plots.map Plot.plotNumber =
      List.map Plot.plotNumber [] ++ ["Plot #" ++ toString (0 + 1)] :=
  c10_confirmed.1 _ (by decide)

/-- In a shape list with no duplicate ids, at most one shape carries any
given id. -/
lemma countP_id_eq_le_one : ∀ (l : List Shape), (l.map Shape.id).Nodup →
    ∀ cid : ℕ, l.countP (fun sh => decide (some sh.id = some cid)) ≤ 1 := by
  intro l
  induction l with
  | nil => intro _ cid; simp
  | cons a t ih =>
      intro h cid
      rw [List.map_cons, List.nodup_cons] at h
      rw [List.countP_cons]
      by_cases hca : a.id = cid
      · have hz : t.countP (fun sh => decide (some sh.id = some cid)) = 0 := by
          apply List.countP_eq_zero.mpr
          intro sh hsh
          simp only [decide_eq_true_eq, Option.some.injEq]
          intro he
          exact h.1 (by rw [← hca] at he; exact he ▸ List.mem_map_of_mem Shape.id hsh)
        rw [hz]
        cases hpa : (decide (some a.id = some cid)) <;> simp
      · have hle := ih h.2 cid
        have hpa : decide (some a.id = some cid) = false := by simp [hca]
        rw [hpa]
        simpa using hle

/-- `Array.prototype.find` semantics over an append: when every earlier
shape misses the click point and `a` contains it, the search returns `a`. -/
lemma find?_first_hit (x y : ℚ) : ∀ (pre post : List Shape) (a : Shape),
    (∀ s ∈ pre, hitTest x y s = false) → hitTest x y a = true →
    (pre ++ a :: post).find? (hitTest x y) = some a := by
  intro pre
  induction pre with
  | nil =>
      intro post a _ ha
      simpa using List.find?_cons_of_pos post ha
  | cons q t ih =>
      intro post a h ha
      have hq : ¬ hitTest x y q = true := by
        simp [h q (by simp)]
      rw [List.cons_append, List.find?_cons_of_neg _ hq]
      exact ih post a (fun s hs => h s (by simp [hs])) ha

/-- The first shape drawn in this session: a square covering (0,0)–(10,10). -/
def shapeFirst : Shape :=
  { id := 0, type := ShapeType.square, x := 0, y := 0, width := 10,
    height := 10, rotation := 0, color := "b", isSelected := false }

/-- The second (last-drawn) shape of the session, overlapping the first. -/
def shapeSecond : Shape :=
  { id := 1, type := ShapeType.square, x := 0, y := 0, width := 10,
    height := 10, rotation := 0, color := "g", isSelected := false }

/-- C2 (counterexample): with two overlapping shapes both containing the
click point (5,5), the select-tool hit test picks the first-drawn shape
(`shapes.find` scans in insertion order), not the last-drawn one. -/
theorem c2_counterexample :
    hitTest 5 5 shapeSecond = true ∧
    (selectClick [shapeFirst, shapeSecond] 5 5).1 ≠ some shapeSecond.id ∧
    (selectClick [shapeFirst, shapeSecond] 5 5).1 = some shapeFirst.id := by
  have h1 : hitTest 5 5 shapeFirst = true := by
    norm_num [hitTest, shapeFirst]
  have h2 : hitTest 5 5 shapeSecond = true := by
    norm_num [hitTest, shapeSecond]
  have hf : [shapeFirst, shapeSecond].find? (hitTest 5 5) = some shapeFirst :=
    List.find?_cons_of_pos _ h1
  refine ⟨h2, ?_, ?_⟩
  · show Option.map Shape.id ([shapeFirst, shapeSecond].find? (hitTest 5 5)) ≠
      some shapeSecond.id
    rw [hf]
    simp [shapeFirst, shapeSecond]
  · show Option.map Shape.id ([shapeFirst, shapeSecond].find? (hitTest 5 5)) =
      some shapeFirst.id
    rw [hf]
    rfl

/-- C2 (amended): select-tool hit-testing marks at most one shape selected
(given distinct shape ids), a click on empty canvas space clears the
selection entirely, and among several overlapping shapes containing the
point the FIRST-drawn (earliest-inserted) shape wins, since
`shapes.find` returns the first array entry whose bounding box contains
the point. -/
theorem c2_amended :
    (∀ (shapes : List Shape) (x y : ℚ),
      ((shapes.map Shape.id).Nodup →
        (selectClick shapes x y).2.countP (fun sh => sh.isSelected) ≤ 1) ∧
      ((∀ sh ∈ shapes, hitTest x y sh = false) →
        (selectClick shapes x y).1 = none ∧
        ∀ sh ∈ (selectClick shapes x y).2, sh.isSelected = false)) ∧
    (∀ (pre post : List Shape) (a : Shape) (x y : ℚ),
      (∀ s ∈ pre, hitTest x y s = false) → hitTest x y a = true →
      (selectClick (pre ++ a :: post) x y).1 = some a.id) := by
  constructor
  · intro shapes x y
    constructor
    · intro hnd
      simp only [selectClick, List.countP_map]
      cases hc : shapes.find? (hitTest x y) with
      | none => simp [Function.comp_def]
      | some c => simpa [Function.comp_def] using countP_id_eq_le_one shapes hnd c.id
    · intro hmiss
      have hnone : shapes.find? (hitTest x y) = none :=
        List.find?_eq_none.mpr (fun sh hsh => by simp [hmiss sh hsh])
      constructor
      · simp [selectClick, hnone]
      · intro sh hsh
        simp only [selectClick, hnone, List.mem_map] at hsh
        obtain ⟨sh0, _, rfl⟩ := hsh
        simp
  · intro pre post a x y hmiss ha
    simp [selectClick, find?_first_hit x y pre post a hmiss ha]

/-- C2 (witness): the amended theorem at the concrete overlapping pair —
at most one shape ends up selected, and with the first-drawn shape
prepended before the second both containing (5,5), the first wins. -/
theorem c2_witness :
    (selectClick [shapeFirst, shapeSecond] 5 5).2.countP
      (fun sh => sh.isSelected) ≤ 1 ∧
    (selectClick ([] ++ shapeFirst :: [shapeSecond]) 5 5).1 =
      some shapeFirst.id :=
  ⟨(c2_amended.1 [shapeFirst, shapeSecond] 5 5).1 (by decide),
   c2_amended.2 [] [shapeSecond] shapeFirst 5 5 (by simp)
     (by norm_num [hitTest, shapeFirst])⟩

/-- C4: each drag move translates from the previous move's pointer capture
(the new `dragOffset` is the current pointer), a single move translates the
anchor by exactly the pointer delta in pixel space, and when the projection
pair is exact (mutually inverse), dragging by (dx,dy) and then by (−dx,−dy)
returns the anchor to its original geographic position. -/
theorem c4_confirmed (proj : LatLng → Pt) (unproj : Pt → LatLng)
    (hpu : ∀ p, unproj (proj p) = p) (hup : ∀ q, proj (unproj q) = q)
    (pos : LatLng) (m0 m1 m2 : Pt) (dx dy : ℚ)
    (hm1 : m1 = ⟨m0.x + dx, m0.y + dy⟩)
    (hm2 : m2 = ⟨m1.x - dx, m1.y - dy⟩) :
    (dragMouseMove proj unproj
        (dragMouseMove proj unproj (handleSvgMouseDown pos m0) m1) m2).overlayPos =
      pos ∧
    (dragMouseMove proj unproj (handleSvgMouseDown pos m0) m1).overlayPos =
      unproj ⟨(proj pos).x + dx, (proj pos).y + dy⟩ ∧
    (dragMouseMove proj unproj (handleSvgMouseDown pos m0) m1).dragOffset = m1 := by
  subst hm1 hm2
  have hstep1 :
      (dragMouseMove proj unproj (handleSvgMouseDown pos m0)
        ⟨m0.x + dx, m0.y + dy⟩).overlayPos =
        unproj ⟨(proj pos).x + dx, (proj pos).y + dy⟩ := by
    simp only [dragMouseMove, handleSvgMouseDown]
    norm_num
  refine ⟨?_, hstep1, rfl⟩
  simp only [dragMouseMove, handleSvgMouseDown, hstep1, hup]
  norm_num
  rw [show (⟨(proj pos).x, (proj pos).y⟩ : Pt) = proj pos from rfl, hpu]

/-- The identity projection used to instantiate the C4 witness. -/
def projId (p : LatLng) : Pt := ⟨p.lat, p.lng⟩

/-- The inverse of `projId`. -/
def unprojId (q : Pt) : LatLng := ⟨q.x, q.y⟩

/-- C4 (witness): the drag round trip at a concrete anchor (1,2), pointer
start (3,4), and delta (5,6) under the identity projection. -/
theorem c4_witness :
    (dragMouseMove projId unprojId
        (dragMouseMove projId unprojId (handleSvgMouseDown ⟨1, 2⟩ ⟨3, 4⟩) ⟨8, 10⟩)
        ⟨3, 4⟩).overlayPos = ⟨1, 2⟩ :=
  (c4_confirmed projId unprojId (fun p => rfl) (fun q => rfl)
    ⟨1, 2⟩ ⟨3, 4⟩ ⟨8, 10⟩ ⟨3, 4⟩ 5 6 (by norm_num) (by norm_num)).1

/-- The overlay found under an id carries that id. -/
lemma findOverlay_id {l : List ImageOverlay} {j : ℕ} {o : ImageOverlay}
    (h : findOverlay l j = some o) : o.id = j := by
  have := List.find?_some h
  simpa using this

/-- Searching past a head that fails the predicate. -/
lemma find?_cons_false (p : ImageOverlay → Bool) (a : ImageOverlay)
    (l : List ImageOverlay) (h : p a = false) :
    (a :: l).find? p = l.find? p := by
  simp [List.find?_cons, h]

/-- Searching stops at a head that satisfies the predicate. -/
lemma find?_cons_true (p : ImageOverlay → Bool) (a : ImageOverlay)
    (l : List ImageOverlay) (h : p a = true) :
    (a :: l).find? p = some a := by
  simp [List.find?_cons, h]

/-- Updating a record with an id other than `id` does not change what is
found under `id`. -/
lemma findOverlay_update_ne (l : List ImageOverlay) (u : ImageOverlay)
    (id : ℕ) (h : u.id ≠ id) :
    findOverlay (handleUpdateSvgOverlay l u) id = findOverlay l id := by
  induction l with
  | nil => rfl
  | cons a t ih =>
      simp only [handleUpdateSvgOverlay, List.map_cons] at *
      by_cases ha : a.id = u.id
      · rw [if_pos ha]
        have hu : (u.id == id) = false := by simp [h]
        have haid : (a.id == id) = false := by simp [ha, h]
        show List.find? (fun o => o.id == id)
            (u :: List.map (fun o => if o.id = u.id then u else o) t) =
          List.find? (fun o => o.id == id) (a :: t)
        rw [find?_cons_false (fun o => o.id == id) u _ hu,
            find?_cons_false (fun o => o.id == id) a t haid]
        exact ih
      · rw [if_neg ha]
        show List.find? (fun o => o.id == id)
            (a :: List.map (fun o => if o.id = u.id then u else o) t) =
          List.find? (fun o => o.id == id) (a :: t)
        cases haid : (a.id == id) with
        | true =>
            rw [find?_cons_true (fun o => o.id == id) a _ haid,
                find?_cons_true (fun o => o.id == id) a t haid]
        | false =>
            rw [find?_cons_false (fun o => o.id == id) a _ haid,
                find?_cons_false (fun o => o.id == id) a t haid]
            exact ih

/-- One engine step can neither unfix a fixed overlay, nor aim a gesture at
it, nor change the record found under its id. -/
lemma step_preserves (isAdmin : Bool) (proj : LatLng → Pt)
    (unproj : Pt → LatLng) (sqrtFn : ℚ → ℚ) (angleDeg : Pt → Pt → ℚ)
    (s : MapState) (ev : MapEvent) (id : ℕ)
    (h1 : s.fixedOverlays.contains id = true)
    (h2 : gestureTargets s.gesture id = false) :
    (step isAdmin proj unproj sqrtFn angleDeg s ev).fixedOverlays.contains id = true ∧
    gestureTargets (step isAdmin proj unproj sqrtFn angleDeg s ev).gesture id = false ∧
    findOverlay (step isAdmin proj unproj sqrtFn angleDeg s ev).overlays id =
      findOverlay s.overlays id := by
  obtain ⟨ovs, fixed, g⟩ := s
  simp only at h1 h2
  cases ev with
  | svgMouseDown j mouse =>
      by_cases hg : (isAdmin && !(fixed.contains j)) = true
      · have hj : (j == id) = false := by
          rcases Bool.and_eq_true_iff.mp hg with ⟨-, hnf⟩
          simp only [Bool.not_eq_true'] at hnf
          simp only [beq_eq_false_iff_ne, ne_eq]
          intro he
          rw [he] at hnf
          rw [hnf] at h1
          cases h1
        simp only [step, if_pos hg]
        exact ⟨h1, by simp [gestureTargets, hj], by trivial⟩
      · simp only [step, if_neg hg]
        exact ⟨h1, h2, by trivial⟩
  | resizeMouseDown j mouse =>
      by_cases hg : (isAdmin && !(fixed.contains j)) = true
      · have hj : (j == id) = false := by
          rcases Bool.and_eq_true_iff.mp hg with ⟨-, hnf⟩
          simp only [Bool.not_eq_true'] at hnf
          simp only [beq_eq_false_iff_ne, ne_eq]
          intro he
          rw [he] at hnf
          rw [hnf] at h1
          cases h1
        cases hfo : findOverlay ovs j with
        | some o =>
            simp only [step, if_pos hg, hfo]
            exact ⟨h1, by simp [gestureTargets, hj], by trivial⟩
        | none =>
            simp only [step, if_pos hg, hfo]
            exact ⟨h1, h2, by trivial⟩
      · simp only [step, if_neg hg]
        exact ⟨h1, h2, by trivial⟩
  | rotateMouseDown j mouse =>
      by_cases hg : (isAdmin && !(fixed.contains j)) = true
      · have hj : (j == id) = false := by
          rcases Bool.and_eq_true_iff.mp hg with ⟨-, hnf⟩
          simp only [Bool.not_eq_true'] at hnf
          simp only [beq_eq_false_iff_ne, ne_eq]
          intro he
          rw [he] at hnf
          rw [hnf] at h1
          cases h1
        cases hfo : findOverlay ovs j with
        | some o =>
            simp only [step, if_pos hg, hfo]
            exact ⟨h1, by simp [gestureTargets, hj], by trivial⟩
        | none =>
            simp only [step, if_pos hg, hfo]
            exact ⟨h1, h2, by trivial⟩
      · simp only [step, if_neg hg]
        exact ⟨h1, h2, by trivial⟩
  | fixClick j =>
      by_cases hg : (isAdmin && !(fixed.contains j)) = true
      · simp only [step, if_pos hg]
        refine ⟨?_, h2, by trivial⟩
        have hmem : id ∈ fixed := by simpa using h1
        simp [List.contains_cons]
        exact Or.inr hmem
      · simp only [step, if_neg hg]
        exact ⟨h1, h2, by trivial⟩
  | mouseUp =>
      simp only [step]
      exact ⟨h1, rfl, by trivial⟩
  | mouseMove mouse =>
      cases g with
      | idle =>
          simp only [step]
          exact ⟨h1, h2, by trivial⟩
      | dragging j dragOffset =>
          have hj : j ≠ id := by
            simpa [gestureTargets] using h2
          cases hfo : findOverlay ovs j with
          | some o =>
              have hoid : o.id = j := findOverlay_id hfo
              simp only [step, hfo]
              refine ⟨h1, by simp [gestureTargets, hj], ?_⟩
              exact findOverlay_update_ne ovs _ id (by simpa [hoid] using hj)
          | none =>
              simp only [step, hfo]
              exact ⟨h1, h2, by trivial⟩
      | resizing j startMouse startScale =>
          have hj : j ≠ id := by
            simpa [gestureTargets] using h2
          cases hfo : findOverlay ovs j with
          | some o =>
              have hoid : o.id = j := findOverlay_id hfo
              simp only [step, hfo]
              refine ⟨h1, by simp [gestureTargets, hj], ?_⟩
              exact findOverlay_update_ne ovs _ id (by simpa [hoid] using hj)
          | none =>
              simp only [step, hfo]
              exact ⟨h1, h2, by trivial⟩
      | rotating j startAngle initRot =>
          have hj : j ≠ id := by
            simpa [gestureTargets] using h2
          cases hfo : findOverlay ovs j with
          | some o =>
              have hoid : o.id = j := findOverlay_id hfo
              simp only [step, hfo]
              refine ⟨h1, by simp [gestureTargets, hj], ?_⟩
              exact findOverlay_update_ne ovs _ id (by simpa [hoid] using hj)
          | none =>
              simp only [step, hfo]
              exact ⟨h1, h2, by trivial⟩

/-- C7: once an overlay is in the fixed set and no gesture is aimed at it,
then after any further event sequence — mouse-downs on its body or handles,
fix clicks, pointer moves, pointer ups — the record found under its id is
unchanged (anchor position, scale and rotation included), it is still fixed
and untargeted, its manipulation handles are not rendered, its container
accepts no pointer events, and its rendered pixel position is still computed
by projecting its geographic anchor through the current projection. -/
theorem c7_confirmed (isAdmin : Bool) (proj : LatLng → Pt)
    (unproj : Pt → LatLng) (sqrtFn : ℚ → ℚ) (angleDeg : Pt → Pt → ℚ)
    (s : MapState) (id : ℕ) (evs : List MapEvent)
    (h1 : s.fixedOverlays.contains id = true)
    (h2 : gestureTargets s.gesture id = false) :
    findOverlay
        (evs.foldl (step isAdmin proj unproj sqrtFn angleDeg) s).overlays id =
      findOverlay s.overlays id ∧
    (evs.foldl (step isAdmin proj unproj sqrtFn angleDeg) s).fixedOverlays.contains id
      = true ∧
    gestureTargets
        (evs.foldl (step isAdmin proj unproj sqrtFn angleDeg) s).gesture id = false ∧
    showHandles isAdmin
        (evs.foldl (step isAdmin proj unproj sqrtFn angleDeg) s) id = false ∧
    overlayPointerEventsEnabled isAdmin
        (evs.foldl (step isAdmin proj unproj sqrtFn angleDeg) s) id = false ∧
    (∀ o, findOverlay
        (evs.foldl (step isAdmin proj unproj sqrtFn angleDeg) s).overlays id =
          some o → renderedPoint proj o = proj o.position) := by
  have main : ∀ (l : List MapEvent) (t : MapState),
      t.fixedOverlays.contains id = true →
      gestureTargets t.gesture id = false →
      findOverlay (l.foldl (step isAdmin proj unproj sqrtFn angleDeg) t).overlays id =
        findOverlay t.overlays id ∧
      (l.foldl (step isAdmin proj unproj sqrtFn angleDeg) t).fixedOverlays.contains id
        = true ∧
      gestureTargets
        (l.foldl (step isAdmin proj unproj sqrtFn angleDeg) t).gesture id = false := by
    intro l
    induction l with
    | nil => intro t ht1 ht2; exact ⟨rfl, ht1, ht2⟩
    | cons ev rest ih =>
        intro t ht1 ht2
        obtain ⟨hs1, hs2, hs3⟩ :=
          step_preserves isAdmin proj unproj sqrtFn angleDeg t ev id ht1 ht2
        obtain ⟨hr1, hr2, hr3⟩ :=
          ih (step isAdmin proj unproj sqrtFn angleDeg t ev) hs1 hs2
        exact ⟨hr1.trans hs3, hr2, hr3⟩
  obtain ⟨hm1, hm2, hm3⟩ := main evs s h1 h2
  refine ⟨hm1, hm2, hm3, ?_, ?_, fun o _ => rfl⟩
  · unfold showHandles
    rw [hm2]
    simp
  · unfold overlayPointerEventsEnabled
    rw [hm2]
    simp

/-- The initial engine state of the C7 witness: one overlay (id 7), already
fixed, no active gesture. -/
def fixedMapState : MapState :=
  { overlays := [sampleOverlay], fixedOverlays := [7], gesture := Gesture.idle }

/-- An attempted drag on the fixed overlay: body mouse-down, a pointer move,
pointer up. -/
def attemptedDrag : List MapEvent :=
  [MapEvent.svgMouseDown 7 ⟨0, 0⟩, MapEvent.mouseMove ⟨5, 5⟩, MapEvent.mouseUp]

/-- C7 (witness): the attempted drag on the fixed overlay with id 7 leaves
the record found under id 7 unchanged and keeps it fixed. -/
theorem c7_witness :
    findOverlay
        (attemptedDrag.foldl
          (step true projId unprojId sqrtSample (fun _ _ => 0))
          fixedMapState).overlays 7 =
      findOverlay fixedMapState.overlays 7 ∧
    (attemptedDrag.foldl
        (step true projId unprojId sqrtSample (fun _ _ => 0))
        fixedMapState).fixedOverlays.contains 7 = true :=
  ⟨(c7_confirmed true projId unprojId sqrtSample (fun _ _ => 0)
      fixedMapState 7 attemptedDrag (by decide) (by decide)).1,
   (c7_confirmed true projId unprojId sqrtSample (fun _ _ => 0)
      fixedMapState 7 attemptedDrag (by decide) (by decide)).2.1⟩

end SiteLayout
